import Mathlib

/-!
Verification of the zbus connection layer.

This file gives a shallow embedding of `src/zbus/src/connection.rs` (the
connection coordinator of the zbus D-Bus library) and proves the claims of the
specification about it.  The connection state is embedded as an explicit record,
with the raw transport and the kernel modelled as data: the sequence of messages
the transport will deliver, the outbound buffer, and the answer the kernel gives
to a flush attempt.  Machine integers are natural numbers with explicit
reduction modulo two to the thirty-two where the source wraps.
-/

namespace ZBus

/-- Modelled from the spec: D-Bus message types, section 3 of the spec
(the enum `MessageType` lives in message_header.rs, which is not under src). -/
inductive MessageType where
  | Invalid
  | MethodCall
  | MethodReturn
  | Error
  | Signal
  deriving DecidableEq

/-- Modelled from the spec: the parts of a D-Bus message that the connection
layer inspects, section 3 of the spec (struct `Message` lives in message.rs,
which is not under src): the message type, the serial number of the primary
header, the optional REPLY_SERIAL header field, the attached file descriptors,
and an opaque body identifier. -/
structure Message where
  msgType : MessageType
  serialNum : Nat
  replySerial : Option Nat
  fds : List Nat
  body : Nat
  deriving DecidableEq

/-- Modelled from the spec: a platform I/O error, identified by whether its
kind is WouldBlock, which is the only distinction connection.rs makes. -/
structure IoErr where
  wouldBlock : Bool
  code : Nat
  deriving DecidableEq

/-- Modelled from the spec: the error taxonomy of section 7 of the spec
(enum `Error` lives in error.rs, which is not under src), restricted to the
kinds the connection layer produces; `methodError` carries the ERROR reply
message, as the conversion from `Message` does. -/
inductive Error where
  | ioError (e : IoErr)
  | Unsupported
  | methodError (m : Message)
  deriving DecidableEq

/-- The modulus of a 32-bit counter, two to the thirty-two. -/
def U32MOD : Nat := 4294967296

/-- `DEFAULT_MAX_QUEUED` (connection.rs line 16). -/
def DEFAULT_MAX_QUEUED : Nat := 32

/-- The WouldBlock error a non-blocking socket reports when no data is ready. -/
def wouldBlockIo : IoErr := { wouldBlock := true, code := 0 }

/-- State of a `Connection` (struct ConnectionInner, connection.rs lines 20 to 37),
with the raw transport and the kernel modelled explicitly: `transportIn` is the
sequence of messages the transport will deliver, `outBuf` the outbound buffer of
the raw connection, `sentMsgs` the messages already written to the socket, and
`flushErr` the answer the kernel gives to a `try_flush` call (`none` meaning the
flush succeeds). -/
structure ConnState where
  capUnixFd : Bool
  uniqueName : Option String
  serial : Nat
  incomingQueue : List Message
  maxQueued : Nat
  handler : Option (Message → Option Message)
  transportIn : List Message
  outBuf : List Message
  sentMsgs : List Message
  flushErr : Option IoErr

/-- `Connection::new_authenticated_unix` (connection.rs lines 448 to 459), over
an authenticated transport modelled by its fd capability, the incoming message
stream and the kernel flush behaviour. -/
def new_authenticated_unix (capUnixFd : Bool) (transportIn : List Message)
    (flushErr : Option IoErr) : ConnState :=
  { capUnixFd := capUnixFd
    uniqueName := none
    serial := 1
    incomingQueue := []
    maxQueued := DEFAULT_MAX_QUEUED
    handler := none
    transportIn := transportIn
    outBuf := []
    sentMsgs := []
    flushErr := flushErr }

/-- `Connection::max_queued` (connection.rs lines 157 to 159). -/
def max_queued (st : ConnState) : Nat :=
  st.maxQueued

/-- `Connection::set_max_queued` (connection.rs lines 178 to 182): replaces the
cell with the given value, any usize is accepted. -/
def set_max_queued (st : ConnState) (max : Nat) : ConnState :=
  { st with maxQueued := max }

/-- `Connection::unique_name` (connection.rs lines 190 to 192). -/
def unique_name (st : ConnState) : Option String :=
  st.uniqueName

/-- `Connection::set_unique_name` (connection.rs lines 470 to 472): `OnceCell::set`
succeeds only when the cell is empty and hands the rejected value back otherwise,
leaving the stored value unchanged. -/
def set_unique_name (st : ConnState) (name : String) : Except String Unit × ConnState :=
  match st.uniqueName with
  | none => (Except.ok (), { st with uniqueName := some name })
  | some _ => (Except.error name, st)

/-- `Connection::set_default_message_handler` (connection.rs lines 423 to 425). -/
def set_default_message_handler (st : ConnState) (h : Message → Option Message) : ConnState :=
  { st with handler := some h }

/-- `Connection::reset_default_message_handler` (connection.rs lines 430 to 432). -/
def reset_default_message_handler (st : ConnState) : ConnState :=
  { st with handler := none }

/-- `Connection::next_serial` (connection.rs lines 491 to 495): `Cell::replace`
returns the previous content, so the old counter value is returned and the
stored counter becomes the old value plus one; the addition is a u32 addition,
which wraps (release semantics), hence the reduction modulo `U32MOD`. -/
def next_serial (st : ConnState) : Nat × ConnState :=
  let next := (st.serial + 1) % U32MOD
  (st.serial, { st with serial := next })

/-- The read loop inside `Connection::receive_message` (connection.rs lines 212
to 225): read one message from the transport; when a default handler is
installed it decides the fate of every message read; a transport with no data
ready reports WouldBlock, as a non-blocking socket does. Returns the result and
the remaining transport stream. -/
def readLoop (h : Option (Message → Option Message)) :
    List Message → Except Error Message × List Message
  | [] => (Except.error (Error.ioError wouldBlockIo), [])
  | m :: rest =>
    match h with
    | none => (Except.ok m, rest)
    | some f =>
      match f m with
      | some m2 => (Except.ok m2, rest)
      | none => readLoop h rest

/-- `Connection::receive_message` (connection.rs lines 206 to 226): pop the
incoming queue first (a `Vec::pop`, which removes the last element); only when
the queue is empty read from the transport, through the handler when one is
installed. -/
def receive_message (st : ConnState) : Except Error Message × ConnState :=
  match st.incomingQueue.getLast? with
  | some m => (Except.ok m, { st with incomingQueue := st.incomingQueue.dropLast })
  | none =>
    let r := readLoop st.handler st.transportIn
    (r.1, { st with transportIn := r.2 })

/-- `Connection::send_message` (connection.rs lines 239 to 261): refuse with
`Unsupported` a message carrying fds when the connection lacks the capability;
otherwise allocate a serial, rewrite the primary header serial field, enqueue
in the transport and call `try_flush` once, swallowing WouldBlock but
propagating other I/O errors. -/
def send_message (st : ConnState) (msg : Message) : Except Error Nat × ConnState :=
  if msg.fds ≠ [] ∧ st.capUnixFd = false then
    (Except.error Error.Unsupported, st)
  else
    let serial := st.serial
    let st1 : ConnState := { st with serial := (st.serial + 1) % U32MOD }
    let msg1 : Message := { msg with serialNum := serial }
    let st2 : ConnState := { st1 with outBuf := st1.outBuf ++ [msg1] }
    match st2.flushErr with
    | none =>
      (Except.ok serial, { st2 with outBuf := [], sentMsgs := st2.sentMsgs ++ st2.outBuf })
    | some e =>
      if e.wouldBlock then (Except.ok serial, st2)
      else (Except.error (Error.ioError e), st2)

/-- The flush-draining loop at the start of `Connection::call_method`
(connection.rs lines 314 to 323): retry `flush` while it reports WouldBlock,
waiting for write readiness in between; `none` means the wait never ended
within the given fuel. On success the outbound buffer is written out. -/
def drainFlush : Nat → ConnState → Option (Except Error Unit × ConnState)
  | 0, _ => none
  | fuel + 1, st =>
    match st.flushErr with
    | none =>
      some (Except.ok (), { st with outBuf := [], sentMsgs := st.sentMsgs ++ st.outBuf })
    | some e =>
      if e.wouldBlock then drainFlush fuel st
      else some (Except.error (Error.ioError e), st)

/-- The reply-waiting loop of `Connection::call_method` (connection.rs lines 324
to 357), with explicit fuel; `none` means the loop did not return within the
fuel (the real loop blocks until the transport produces the reply). `s` is the
awaited serial and `tmp` the temporary staging buffer. A received message whose
REPLY_SERIAL differs from `s` is staged when the main queue plus the staging
buffer are below `max_queued` and dropped otherwise; on the matching serial the
staging buffer is appended to the main queue, then ERROR returns a typed error,
METHOD_RETURN returns success, and any other type continues the loop. -/
def callLoop (s : Nat) : Nat → List Message → ConnState → Option (Except Error Message × ConnState)
  | 0, _, _ => none
  | fuel + 1, tmp, st =>
    match receive_message st with
    | (Except.error (Error.ioError e), st1) =>
      if e.wouldBlock then callLoop s fuel tmp st1
      else some (Except.error (Error.ioError e), st1)
    | (Except.error e, st1) => some (Except.error e, st1)
    | (Except.ok m, st1) =>
      if m.replySerial ≠ some s then
        if st1.incomingQueue.length + tmp.length < st1.maxQueued then
          callLoop s fuel (tmp ++ [m]) st1
        else
          callLoop s fuel tmp st1
      else
        let st2 : ConnState := { st1 with incomingQueue := st1.incomingQueue ++ tmp }
        match m.msgType with
        | MessageType.Error => some (Except.error (Error.methodError m), st2)
        | MessageType.MethodReturn => some (Except.ok m, st2)
        | _ => callLoop s fuel [] st2

/-- `Connection::call_method` (connection.rs lines 293 to 358), taking the
already-built method-call message `m` (message construction from a typed body
belongs to the message layer, outside the connection coordinator): send the
message, drain the flush, then run the reply-waiting loop on the serial the
send returned. -/
def call_method (fuel : Nat) (st : ConnState) (m : Message) :
    Option (Except Error Message × ConnState) :=
  match send_message st m with
  | (Except.error e, st1) => some (Except.error e, st1)
  | (Except.ok serial, st1) =>
    match drainFlush fuel st1 with
    | none => none
    | some (Except.error e, st2) => some (Except.error e, st2)
    | some (Except.ok _, st2) => callLoop serial fuel [] st2

/-- Iterated `send_message` of the same message: the state after `n` sends. -/
def iterSend (m : Message) (st : ConnState) : Nat → ConnState
  | 0 => st
  | n + 1 => (send_message (iterSend m st n) m).2

/-- A signal message with no REPLY_SERIAL, used as concrete witness input. -/
def sigMsg (b : Nat) : Message :=
  { msgType := MessageType.Signal, serialNum := 0, replySerial := none, fds := [], body := b }

/-- A METHOD_RETURN reply to serial `s`, used as concrete witness input. -/
def replyMsg (s b : Nat) : Message :=
  { msgType := MessageType.MethodReturn, serialNum := 0, replySerial := some s, fds := [], body := b }

/-- An ERROR reply to serial `s`, used as concrete witness input. -/
def errMsg (s b : Nat) : Message :=
  { msgType := MessageType.Error, serialNum := 0, replySerial := some s, fds := [], body := b }

/-- A method-call message without fds, used as concrete witness input. -/
def pingMsg : Message :=
  { msgType := MessageType.MethodCall, serialNum := 0, replySerial := none, fds := [], body := 0 }

/-- A method-call message carrying one file descriptor. -/
def fdMsg : Message :=
  { pingMsg with fds := [3] }

/-- A freshly constructed connection with an empty transport. -/
def freshConn : ConnState :=
  new_authenticated_unix true [] none

/-- Popping a nonempty incoming queue returns its last element and only removes
that element from the queue; no other state component changes. -/
lemma receive_message_queue_pop (st : ConnState) (l : List Message) (a : Message)
    (hq : st.incomingQueue = l ++ [a]) :
    receive_message st = (Except.ok a, { st with incomingQueue := l }) := by
  unfold receive_message
  rw [hq, List.getLast?_concat, List.dropLast_concat]

/-- Claim C3: sending a message that carries at least one file descriptor on a
connection whose fd capability is false returns the Unsupported error and the
whole connection state, in particular the outbound transport buffers and the
serial counter, is left unchanged. -/
theorem claim3_send_fds_unsupported_pure (st : ConnState) (m : Message)
    (hfds : m.fds ≠ []) (hcap : st.capUnixFd = false) :
    send_message st m = (Except.error Error.Unsupported, st) := by
  unfold send_message
  rw [if_pos ⟨hfds, hcap⟩]

/-- Witness for claim C3 at a concrete connection and message. -/
theorem claim3_witness :
    fdMsg.fds ≠ [] ∧
      send_message (new_authenticated_unix false [] none) fdMsg =
        (Except.error Error.Unsupported, new_authenticated_unix false [] none) :=
  ⟨by decide, claim3_send_fds_unsupported_pure (new_authenticated_unix false [] none) fdMsg
    (by decide) rfl⟩

/-- Claim C4: with a nonempty incoming queue, `receive_message` removes and
returns one queued message, the transport stream is untouched and the handler
plays no role (the state equation holds for every installed handler and every
transport content), and successive calls yield the queued messages in LIFO
order, most recently enqueued first. -/
theorem claim4_receive_queue_lifo (st : ConnState) (l : List Message) (a b : Message)
    (hq : st.incomingQueue = l ++ [a, b]) :
    receive_message st = (Except.ok b, { st with incomingQueue := l ++ [a] }) ∧
      receive_message { st with incomingQueue := l ++ [a] } =
        (Except.ok a, { st with incomingQueue := l }) := by
  constructor
  · exact receive_message_queue_pop st (l ++ [a]) b (by rw [hq]; simp)
  · exact receive_message_queue_pop _ l a rfl

/-- Witness for claim C4 at a concrete two-element queue. -/
theorem claim4_witness :
    receive_message { freshConn with incomingQueue := [sigMsg 1, sigMsg 2] } =
        (Except.ok (sigMsg 2), { freshConn with incomingQueue := [sigMsg 1] }) ∧
      receive_message { freshConn with incomingQueue := [sigMsg 1] } =
        (Except.ok (sigMsg 1), { freshConn with incomingQueue := [] }) :=
  claim4_receive_queue_lifo { freshConn with incomingQueue := [sigMsg 1, sigMsg 2] }
    [] (sigMsg 1) (sigMsg 2) rfl

/-- Claim C8: the unique name is write-once: on a connection with no name the
first `set_unique_name` succeeds and stores the name, and every later
`set_unique_name` returns the rejected value as an error and leaves the stored
name unchanged, so `unique_name` keeps returning the first value.  (The bus
construction path turns this failure into a panic, a programmer contract
violation, which is outside the value-level model.) -/
theorem claim8_unique_name_write_once (st : ConnState) (n1 n2 : String)
    (h : st.uniqueName = none) :
    set_unique_name st n1 = (Except.ok (), { st with uniqueName := some n1 }) ∧
      set_unique_name { st with uniqueName := some n1 } n2 =
        (Except.error n2, { st with uniqueName := some n1 }) ∧
      unique_name { st with uniqueName := some n1 } = some n1 := by
  refine ⟨?_, rfl, rfl⟩
  unfold set_unique_name
  rw [h]

/-- The unique name handed out by the bus in the concrete witness. -/
def wBusName : String := ":1.42"

/-- A second name used in the witness of the write-once property. -/
def wBusName2 : String := ":1.43"

/-- Witness for claim C8 at a concrete connection and names. -/
theorem claim8_witness :
    set_unique_name freshConn wBusName =
        (Except.ok (), { freshConn with uniqueName := some wBusName }) ∧
      set_unique_name { freshConn with uniqueName := some wBusName } wBusName2 =
        (Except.error wBusName2, { freshConn with uniqueName := some wBusName }) ∧
      unique_name { freshConn with uniqueName := some wBusName } = some wBusName :=
  claim8_unique_name_write_once freshConn wBusName wBusName2 rfl

/-- Claim C6: with an interception hook installed, `receive_message` invokes
the hook on every message read from the transport: a message the hook maps to
`some m2` is returned to the caller as `m2`, a message the hook maps to `none`
is consumed and the call behaves as a fresh read on the remaining transport;
and messages popped from the incoming queue are returned without the hook
playing any role. -/
theorem claim6_handler_transport_only (st : ConnState) (f : Message → Option Message)
    (m : Message) (rest : List Message) (hh : st.handler = some f) :
    (st.incomingQueue = [] → st.transportIn = m :: rest →
      receive_message st =
        match f m with
        | some m2 => (Except.ok m2, { st with transportIn := rest })
        | none => receive_message { st with transportIn := rest }) ∧
      (∀ l a, st.incomingQueue = l ++ [a] →
        receive_message st = (Except.ok a, { st with incomingQueue := l })) := by
  constructor
  · intro hq ht
    cases hfm : f m with
    | some m2 => simp [receive_message, readLoop, hq, ht, hh, hfm]
    | none => simp [receive_message, readLoop, hq, ht, hh, hfm]
  · intro l a hq
    exact receive_message_queue_pop st l a hq

/-- The pass-through hook installed in the witness of claim C6. -/
def passHook : Message → Option Message :=
  fun m => some m

/-- A connection with the pass-through hook installed and one incoming signal. -/
def stHook : ConnState :=
  set_default_message_handler (new_authenticated_unix true [sigMsg 7] none) passHook

/-- Witness for claim C6: the hook sees the transport message and passes it on. -/
theorem claim6_witness :
    stHook.handler = some passHook ∧
      receive_message stHook = (Except.ok (sigMsg 7), { stHook with transportIn := [] }) :=
  ⟨rfl, (claim6_handler_transport_only stHook passHook (sigMsg 7) [] rfl).1 rfl rfl⟩

/-- Claim C7: when the fd capability check passes, `send_message` assigns the
freshly allocated serial (the old counter value), rewrites the primary header
serial field of the enqueued message to it, and calls `try_flush` once: on a
successful flush the rewritten message is written out and the serial returned,
a WouldBlock flush error is swallowed (the serial is still returned, the
message stays in the outbound buffer), and any other I/O error is returned. -/
theorem claim7_send_assign_flush (st : ConnState) (m : Message)
    (hok : m.fds = [] ∨ st.capUnixFd = true) :
    send_message st m =
      match st.flushErr with
      | none =>
        (Except.ok st.serial,
          { st with
            serial := (st.serial + 1) % U32MOD, outBuf := [],
            sentMsgs := st.sentMsgs ++ st.outBuf ++ [{ m with serialNum := st.serial }] })
      | some e =>
        if e.wouldBlock then
          (Except.ok st.serial,
            { st with
              serial := (st.serial + 1) % U32MOD,
              outBuf := st.outBuf ++ [{ m with serialNum := st.serial }] })
        else
          (Except.error (Error.ioError e),
            { st with
              serial := (st.serial + 1) % U32MOD,
              outBuf := st.outBuf ++ [{ m with serialNum := st.serial }] }) := by
  have hcond : ¬(m.fds ≠ [] ∧ st.capUnixFd = false) := by
    rcases hok with h | h
    · exact fun hc => hc.1 h
    · exact fun hc => by rw [h] at hc; exact absurd hc.2 (by decide)
  unfold send_message
  rw [if_neg hcond]
  cases hfl : st.flushErr with
  | none => simp [List.append_assoc]
  | some e => cases hwb : e.wouldBlock <;> simp [hwb]

/-- Witness for claim C7 on a fresh connection whose flush succeeds. -/
theorem claim7_witness :
    (pingMsg.fds = [] ∨ freshConn.capUnixFd = true) ∧
      send_message freshConn pingMsg =
        (Except.ok 1,
          { freshConn with serial := 2, sentMsgs := [{ pingMsg with serialNum := 1 }] }) :=
  ⟨Or.inl rfl, claim7_send_assign_flush freshConn pingMsg (Or.inl rfl)⟩

/-- Claim C9: when the single `try_flush` inside `send_message` fails with an
I/O error that is not WouldBlock, the error is returned, but the rewritten
message remains enqueued in the outbound transport buffer and the serial
counter stays advanced: nothing is rolled back, and a following `send_message`
(here after the kernel recovers, modelled by clearing the flush error) returns
a serial one larger than the allocation of the failed call. -/
theorem claim9_failed_flush_no_rollback (st : ConnState) (m m2 : Message) (e : IoErr)
    (hf : st.flushErr = some e) (hwb : e.wouldBlock = false)
    (h1 : m.fds = []) (h2 : m2.fds = []) :
    send_message st m =
      (Except.error (Error.ioError e),
        { st with
          serial := (st.serial + 1) % U32MOD,
          outBuf := st.outBuf ++ [{ m with serialNum := st.serial }] }) ∧
      (send_message { st with
          serial := (st.serial + 1) % U32MOD,
          outBuf := st.outBuf ++ [{ m with serialNum := st.serial }],
          flushErr := none } m2).1 =
        Except.ok ((st.serial + 1) % U32MOD) := by
  constructor
  · unfold send_message
    rw [if_neg (fun hc => hc.1 h1)]
    simp [hf, hwb]
  · unfold send_message
    rw [if_neg (fun hc => hc.1 h2)]

/-- The non-WouldBlock I/O error used in the witness of claim C9. -/
def brokenPipe : IoErr := { wouldBlock := false, code := 32 }

/-- A fresh connection whose kernel answers every flush with a broken pipe. -/
def stPipe : ConnState := new_authenticated_unix true [] (some brokenPipe)

/-- Witness for claim C9 at a concrete connection with a failing flush. -/
theorem claim9_witness :
    send_message stPipe pingMsg =
        (Except.error (Error.ioError brokenPipe),
          { stPipe with serial := 2, outBuf := [{ pingMsg with serialNum := 1 }] }) ∧
      (send_message { stPipe with
          serial := 2,
          outBuf := [{ pingMsg with serialNum := 1 }], flushErr := none } pingMsg).1 =
        Except.ok 2 :=
  claim9_failed_flush_no_rollback stPipe pingMsg pingMsg brokenPipe rfl rfl rfl rfl

/-- Reducing an already reduced counter again is harmless. -/
lemma mod_add_one_u32 (a : Nat) : (a % U32MOD + 1) % U32MOD = (a + 1) % U32MOD := by
  conv_rhs => rw [Nat.add_mod]
  norm_num [U32MOD]

/-- Invariant of iterated sends on a connection whose flush succeeds: after `n`
sends of a message without fds, the serial counter holds the initial value plus
`n`, reduced modulo the 32-bit modulus, and the flush behaviour is unchanged. -/
lemma iterSend_invariant (m : Message) (st : ConnState) (hm : m.fds = [])
    (hfl : st.flushErr = none) (hs : st.serial < U32MOD) :
    ∀ n, (iterSend m st n).serial = (st.serial + n) % U32MOD ∧
      (iterSend m st n).flushErr = none := by
  intro n
  induction n with
  | zero =>
    refine ⟨?_, hfl⟩
    simp [iterSend, Nat.mod_eq_of_lt hs]
  | succ k ih =>
    obtain ⟨h1, h2⟩ := ih
    constructor
    · show (send_message (iterSend m st k) m).2.serial = _
      simp [send_message, hm, h2, h1, mod_add_one_u32]
      rw [Nat.add_assoc]
    · show (send_message (iterSend m st k) m).2.flushErr = none
      simp [send_message, hm, h2]

/-- The result of the send numbered `n` (zero-indexed) of a message without fds
on a connection whose flush succeeds: the serial initial-plus-`n`, wrapped. -/
lemma nth_send_ok (m : Message) (st : ConnState) (hm : m.fds = [])
    (hfl : st.flushErr = none) (hs : st.serial < U32MOD) (n : Nat) :
    (send_message (iterSend m st n) m).1 = Except.ok ((st.serial + n) % U32MOD) := by
  obtain ⟨h1, h2⟩ := iterSend_invariant m st hm hfl hs n
  simp [send_message, hm, h2, h1]

/-- Claim C2: the claim states that the serials returned by a sequence of
`send_message` calls on a fresh connection are strictly increasing and never
zero, for all sequence lengths including those crossing the 32-bit wraparound
point, where zero must be skipped.  The code has no zero skip: `next_serial`
wraps the u32 counter straight through zero, so on a fresh connection the send
numbered `U32MOD - 2` (zero-indexed) returns the serial `U32MOD - 1` and the
very next send returns the serial 0 — zero is produced and the sequence
decreases, refuting the claim exactly at the wraparound the spec flags as
unaddressed in the source. -/
theorem claim2_serial_wrap_returns_zero :
    (send_message (iterSend pingMsg freshConn (U32MOD - 2)) pingMsg).1 =
        Except.ok (U32MOD - 1) ∧
      (send_message (iterSend pingMsg freshConn (U32MOD - 1)) pingMsg).1 =
        Except.ok 0 := by
  have hser : freshConn.serial = 1 := rfl
  have hlt : freshConn.serial < U32MOD := by rw [hser]; norm_num [U32MOD]
  have h1 := nth_send_ok pingMsg freshConn rfl rfl hlt (U32MOD - 2)
  have h2 := nth_send_ok pingMsg freshConn rfl rfl hlt (U32MOD - 1)
  rw [hser] at h1 h2
  constructor
  · rw [h1]
    norm_num [U32MOD]
  · rw [h2]
    norm_num [U32MOD]

/-- Claim C5: for the reply-waiting loop of `call_method`, when the received
message carries the awaited REPLY_SERIAL, the staging buffer `tmp` is first
drained into the main incoming queue, and then: an ERROR message is returned as
the typed `methodError` error value, a METHOD_RETURN message is returned as
success, and a message of any other type is ignored, the loop carrying on with
an emptied staging buffer. -/
theorem claim5_reply_dispatch (st : ConnState) (s : Nat) (m : Message)
    (rest tmp : List Message) (fuel : Nat)
    (hh : st.handler = none) (hq : st.incomingQueue = [])
    (ht : st.transportIn = m :: rest) (hs : m.replySerial = some s) :
    callLoop s (fuel + 1) tmp st =
      match m.msgType with
      | MessageType.Error =>
        some (Except.error (Error.methodError m),
          { st with transportIn := rest, incomingQueue := tmp })
      | MessageType.MethodReturn =>
        some (Except.ok m, { st with transportIn := rest, incomingQueue := tmp })
      | _ => callLoop s fuel [] { st with transportIn := rest, incomingQueue := tmp } := by
  have hrecv : receive_message st = (Except.ok m, { st with transportIn := rest }) := by
    simp [receive_message, hq, hh, ht, readLoop]
  cases hmt : m.msgType <;> simp [callLoop, hrecv, hs, hq, hmt]

/-- A connection about to deliver an ERROR reply to serial 1. -/
def stErr : ConnState := new_authenticated_unix true [errMsg 1 5] none

/-- Witness for claim C5: the ERROR reply drains the staging buffer into the
queue and is returned as a typed error. -/
theorem claim5_witness :
    callLoop 1 2 [sigMsg 3] stErr =
      some (Except.error (Error.methodError (errMsg 1 5)),
        { stErr with transportIn := [], incomingQueue := [sigMsg 3] }) :=
  claim5_reply_dispatch stErr 1 (errMsg 1 5) [] [sigMsg 3] 1 rfl rfl rfl rfl

/-- Processing the transport prefix `pre` of messages that do not carry the
awaited REPLY_SERIAL, followed by the awaited METHOD_RETURN reply: each prefix
message is staged while the main queue (empty here) plus the staging buffer is
below `max_queued` and dropped otherwise, and on the reply the staging buffer
is appended to the main queue, so the loop returns the reply with the queue
extended by the staged prefix, truncated at the bound. -/
lemma callLoop_stage_pre (s : Nat) (reply : Message) (rest : List Message)
    (hr : reply.replySerial = some s) (hmt : reply.msgType = MessageType.MethodReturn) :
    ∀ (pre : List Message) (fuel : Nat) (tmp : List Message) (st : ConnState),
      st.handler = none → st.incomingQueue = [] →
      st.transportIn = pre ++ reply :: rest →
      (∀ x ∈ pre, x.replySerial ≠ some s) →
      pre.length + 1 ≤ fuel →
      callLoop s fuel tmp st =
        some (Except.ok reply,
          { st with
            transportIn := rest,
            incomingQueue := tmp ++ pre.take (st.maxQueued - tmp.length) }) := by
  intro pre
  induction pre with
  | nil =>
    intro fuel tmp st hh hq ht _ hfuel
    obtain ⟨f, rfl⟩ : ∃ f, fuel = f + 1 := ⟨fuel - 1, by omega⟩
    have hrecv : receive_message st = (Except.ok reply, { st with transportIn := rest }) := by
      simp [receive_message, hq, hh, ht, readLoop]
    simp [callLoop, hrecv, hr, hmt, hq]
  | cons p pre ih =>
    intro fuel tmp st hh hq ht hpre hfuel
    obtain ⟨f, rfl⟩ : ∃ f, fuel = f + 1 := ⟨fuel - 1, by omega⟩
    have hf : pre.length + 1 ≤ f := by
      simp [List.length_cons] at hfuel
      omega
    have hp : p.replySerial ≠ some s := hpre p (List.mem_cons_self p pre)
    have hpre2 : ∀ x ∈ pre, x.replySerial ≠ some s :=
      fun x hx => hpre x (List.mem_cons_of_mem p hx)
    have hrecv : receive_message st =
        (Except.ok p, { st with transportIn := pre ++ reply :: rest }) := by
      simp [receive_message, hq, hh, ht, readLoop]
    simp only [callLoop, hrecv, hq]
    rw [if_pos hp]
    by_cases hlt : tmp.length < st.maxQueued
    · rw [if_pos (by simpa [hq] using hlt)]
      rw [ih f (tmp ++ [p])
        { st with incomingQueue := [], transportIn := pre ++ reply :: rest } hh rfl rfl hpre2 hf]
      have hq2 : st.maxQueued - tmp.length = (st.maxQueued - (tmp.length + 1)) + 1 := by
        omega
      simp [hq2, List.take_succ_cons, List.append_assoc]
    · rw [if_neg (by simpa [hq] using hlt)]
      rw [ih f tmp
        { st with incomingQueue := [], transportIn := pre ++ reply :: rest } hh rfl rfl hpre2 hf]
      have h0 : st.maxQueued - tmp.length = 0 := by omega
      simp [h0]

/-- Behaviour of a whole `call_method` on a connection with an empty incoming
queue, no handler, a succeeding flush, and a transport that delivers `pre`
unrelated messages followed by the METHOD_RETURN reply to the serial the send
allocated: the reply is returned and the incoming queue afterwards holds the
prefix truncated at `max_queued`. -/
lemma call_method_stage (st : ConnState) (m reply : Message)
    (pre rest : List Message) (fuel : Nat)
    (hh : st.handler = none) (hq : st.incomingQueue = []) (hfl : st.flushErr = none)
    (hfds : m.fds = []) (ht : st.transportIn = pre ++ reply :: rest)
    (hpre : ∀ x ∈ pre, x.replySerial ≠ some st.serial)
    (hr : reply.replySerial = some st.serial)
    (hmt : reply.msgType = MessageType.MethodReturn)
    (hfuel : pre.length + 1 ≤ fuel) :
    call_method fuel st m =
      some (Except.ok reply,
        { st with
          serial := (st.serial + 1) % U32MOD,
          outBuf := [],
          sentMsgs := st.sentMsgs ++ st.outBuf ++ [{ m with serialNum := st.serial }],
          transportIn := rest,
          incomingQueue := pre.take st.maxQueued }) := by
  obtain ⟨f, rfl⟩ : ∃ f, fuel = f + 1 := ⟨fuel - 1, by omega⟩
  have hsend : send_message st m =
      (Except.ok st.serial,
        { st with
          serial := (st.serial + 1) % U32MOD,
          outBuf := [],
          sentMsgs := st.sentMsgs ++ st.outBuf ++ [{ m with serialNum := st.serial }] }) := by
    unfold send_message
    rw [if_neg (fun hc => hc.1 hfds)]
    simp [hfl, List.append_assoc]
  have hloop := callLoop_stage_pre st.serial reply rest hr hmt pre (f + 1) []
    { st with
      serial := (st.serial + 1) % U32MOD,
      outBuf := [],
      sentMsgs := st.sentMsgs ++ st.outBuf ++ [{ m with serialNum := st.serial }] }
    hh hq ht hpre hfuel
  rw [hfl] at hloop
  simp only [call_method, hsend, drainFlush, hfl]
  simp only [List.append_nil]
  rw [hloop]
  simp

/-- Claim C1: while `call_method` awaits the reply with serial S, every message
received whose REPLY_SERIAL differs from S is staged in the temporary buffer
when the main queue length plus the staging buffer length is below
`max_queued`, and dropped otherwise; when the reply with serial S arrives the
staged messages are appended to the main incoming queue before `call_method`
returns, so the unrelated prefix, truncated at `max_queued`, sits in the queue
afterwards and is observable by later `receive_message` calls. -/
theorem claim1_staging_preserves_unrelated (st : ConnState) (m reply : Message)
    (pre rest : List Message) (fuel : Nat)
    (hh : st.handler = none) (hq : st.incomingQueue = []) (hfl : st.flushErr = none)
    (hfds : m.fds = []) (ht : st.transportIn = pre ++ reply :: rest)
    (hpre : ∀ x ∈ pre, x.replySerial ≠ some st.serial)
    (hr : reply.replySerial = some st.serial)
    (hmt : reply.msgType = MessageType.MethodReturn)
    (hfuel : pre.length + 1 ≤ fuel) :
    call_method fuel st m =
      some (Except.ok reply,
        { st with
          serial := (st.serial + 1) % U32MOD,
          outBuf := [],
          sentMsgs := st.sentMsgs ++ st.outBuf ++ [{ m with serialNum := st.serial }],
          transportIn := rest,
          incomingQueue := pre.take st.maxQueued }) :=
  call_method_stage st m reply pre rest fuel hh hq hfl hfds ht hpre hr hmt hfuel

/-- A connection whose transport delivers two unrelated signals and then the
METHOD_RETURN reply to serial 1. -/
def stCall : ConnState := new_authenticated_unix true [sigMsg 1, sigMsg 2, replyMsg 1 9] none

/-- Witness for claim C1: both unrelated signals survive the call in the queue. -/
theorem claim1_witness :
    (∀ x ∈ [sigMsg 1, sigMsg 2], x.replySerial ≠ some stCall.serial) ∧
      call_method 3 stCall pingMsg =
        some (Except.ok (replyMsg 1 9),
          { stCall with
            serial := 2,
            sentMsgs := [{ pingMsg with serialNum := 1 }],
            transportIn := [],
            incomingQueue := [sigMsg 1, sigMsg 2] }) :=
  ⟨by decide,
    claim1_staging_preserves_unrelated stCall pingMsg (replyMsg 1 9)
      [sigMsg 1, sigMsg 2] [] 3 rfl rfl rfl rfl rfl (by decide) rfl rfl (by decide)⟩

/-- Claim C10: `set_max_queued` accepts every usize value including 0, and with
`max_queued` equal to 0 every message received during `call_method` whose
REPLY_SERIAL differs from the awaited serial is silently dropped, so after the
call returns the incoming queue is empty. -/
theorem claim10_max_queued_zero (st : ConnState) (q : Nat) (m reply : Message)
    (pre rest : List Message) (fuel : Nat) :
    max_queued (set_max_queued st q) = q ∧
      (st.maxQueued = 0 → st.handler = none → st.incomingQueue = [] →
        st.flushErr = none → m.fds = [] →
        st.transportIn = pre ++ reply :: rest →
        (∀ x ∈ pre, x.replySerial ≠ some st.serial) →
        reply.replySerial = some st.serial →
        reply.msgType = MessageType.MethodReturn →
        pre.length + 1 ≤ fuel →
        call_method fuel st m =
          some (Except.ok reply,
            { st with
              serial := (st.serial + 1) % U32MOD,
              outBuf := [],
              sentMsgs := st.sentMsgs ++ st.outBuf ++ [{ m with serialNum := st.serial }],
              transportIn := rest,
              incomingQueue := [] })) := by
  refine ⟨rfl, ?_⟩
  intro hmax hh hq hfl hfds ht hpre hr hmt hfuel
  have h := call_method_stage st m reply pre rest fuel hh hq hfl hfds ht hpre hr hmt hfuel
  rw [h, hmax]
  simp

/-- A connection with max_queued forced to 0 whose transport delivers one
unrelated signal and then the METHOD_RETURN reply to serial 1. -/
def stZeroQ : ConnState :=
  set_max_queued (new_authenticated_unix true [sigMsg 4, replyMsg 1 8] none) 0

/-- Witness for claim C10: with the bound at 0 the unrelated signal is dropped
and the queue is empty after the call. -/
theorem claim10_witness :
    max_queued (set_max_queued stZeroQ 0) = 0 ∧
      call_method 2 stZeroQ pingMsg =
        some (Except.ok (replyMsg 1 8),
          { stZeroQ with
            serial := 2,
            sentMsgs := [{ pingMsg with serialNum := 1 }],
            transportIn := [],
            incomingQueue := [] }) := by
  have h := claim10_max_queued_zero stZeroQ 0 pingMsg (replyMsg 1 8) [sigMsg 4] [] 2
  exact ⟨h.1, h.2 rfl rfl rfl rfl rfl rfl (by decide) rfl rfl (by decide)⟩

end ZBus
